import Mathlib

/-!
Shallow embedding of the contract `HFTRiskAnalysis_FHE`
(src/contracts/HFTRiskAnalysis_FHE.sol).

Modelling conventions:
- `euint32` ciphertext handles are modelled by the plaintext values they
  carry, as natural numbers; the homomorphic operations of the external
  engine (`FHE.add`, `FHE.sub`, `FHE.mul`, `FHE.div`, `FHE.asEuint32`)
  act as 32-bit wrap-around arithmetic on those values.
- Solidity `mapping`s with struct values are modelled as `Nat → Option`
  functions, reads going through `Option.getD` with the all-zero default
  struct, exactly matching EVM storage semantics for never-written slots.
  The request-id mapping `requestToExchangeId` has scalar values and is
  modelled as a total `Nat → Nat` function defaulting to `0`.
- Addresses, timestamps, and request ids are natural numbers.
- A reverting call (a failed `require`, a failed `FHE.checkSignatures`,
  or a failed `abi.decode`) is an `Except.error`; EVM revert semantics
  roll back every write, so the observable post-state of an erroring
  call is the pre-state (`applyOp`).
- `FHE.checkSignatures` is an external verification primitive; its
  outcome for a given (requestId, cleartexts, proof) triple is supplied
  by the environment as the boolean `proofOk` of the callback operation.
- `abi.decode(cleartexts, (uint32, ...))` succeeds exactly when the byte
  string consists of the right number of 32-byte words each of which
  fits in 32 bits; cleartext byte strings are modelled as the list of
  their 256-bit words.
-/

namespace HFTRisk

/-! ## 32-bit homomorphic arithmetic semantics -/

def U32 : Nat := 2 ^ 32

def asEuint32 (n : Nat) : Nat := n % U32

def fheAdd (a b : Nat) : Nat := (a % U32 + b % U32) % U32

def fheSub (a b : Nat) : Nat := (a % U32 + (U32 - b % U32)) % U32

def fheMul (a b : Nat) : Nat := (a % U32 * (b % U32)) % U32

def fheDiv (a b : Nat) : Nat := (a % U32) / (b % U32)

/-! ## Data model (structs of the contract) -/

structure EncryptedOrderBook where
  exchangeId : Nat
  encryptedBidOrders : Nat
  encryptedAskOrders : Nat
  encryptedOrderFlow : Nat
  encryptedVolatility : Nat
  timestamp : Nat
  exchange : Nat
deriving DecidableEq

structure RiskAssessment where
  encryptedLiquidityImpact : Nat
  encryptedFlashCrashRisk : Nat
  encryptedMarketInstability : Nat
deriving DecidableEq

structure DecryptedAssessment where
  liquidityImpact : Nat
  flashCrashRisk : Nat
  marketInstability : Nat
  isRevealed : Bool
deriving DecidableEq

def defaultOrderBook : EncryptedOrderBook :=
  { exchangeId := 0, encryptedBidOrders := 0, encryptedAskOrders := 0
    encryptedOrderFlow := 0, encryptedVolatility := 0, timestamp := 0, exchange := 0 }

def defaultDecrypted : DecryptedAssessment :=
  { liquidityImpact := 0, flashCrashRisk := 0, marketInstability := 0, isRevealed := false }

@[ext]
structure ContractState where
  exchangeCount : Nat
  orderBooks : Nat → Option EncryptedOrderBook
  riskAssessments : Nat → Option RiskAssessment
  decryptedAssessments : Nat → Option DecryptedAssessment
  requestToExchangeId : Nat → Nat

def initState : ContractState :=
  { exchangeCount := 0
    orderBooks := fun _ => none
    riskAssessments := fun _ => none
    decryptedAssessments := fun _ => none
    requestToExchangeId := fun _ => 0 }

/-- Revert reasons of the contract; the spec taxonomy maps onto them as
`Unauthorized` = `notExchangeOwner` ("Not exchange owner"),
`AlreadyRevealed` = `alreadyDecrypted` ("Already decrypted"),
`UnknownRequest` = `invalidRequest` ("Invalid request"),
`InvalidProof` = `invalidProof` (`FHE.checkSignatures` reverting), and
`MalformedCleartext` = `malformedCleartext` (`abi.decode` reverting). -/
inductive ContractError where
  | notExchangeOwner
  | alreadyDecrypted
  | invalidRequest
  | invalidProof
  | malformedCleartext
deriving DecidableEq

/-- `orderBooks[exchangeId].exchange`, reading through the mapping default. -/
def ownerOf (s : ContractState) (exchangeId : Nat) : Nat :=
  ((s.orderBooks exchangeId).getD defaultOrderBook).exchange

/-- `decryptedAssessments[exchangeId].isRevealed`, reading through the mapping default. -/
def revealedOf (s : ContractState) (exchangeId : Nat) : Bool :=
  ((s.decryptedAssessments exchangeId).getD defaultDecrypted).isRevealed

/-- `abi.decode(cleartexts, (uint32, uint32, uint32))`. -/
def decode3 (cleartexts : List Nat) : Option (Nat × Nat × Nat) :=
  match cleartexts with
  | [a, b, c] => if a < U32 ∧ b < U32 ∧ c < U32 then some (a, b, c) else none
  | _ => none

/-- `abi.decode(cleartexts, (uint32, uint32, uint32, uint32))`. -/
def decode4 (cleartexts : List Nat) : Option (Nat × Nat × Nat × Nat) :=
  match cleartexts with
  | [a, b, c, d] => if a < U32 ∧ b < U32 ∧ c < U32 ∧ d < U32 then some (a, b, c, d) else none
  | _ => none

/-! ## Contract functions -/

/-- `registerExchange(address)`: increments the counter and returns the
new value; the `exchange` argument is ignored by the body. -/
def registerExchange (s : ContractState) (exchange : Nat) : ContractState × Nat :=
  ({ s with exchangeCount := s.exchangeCount + 1 }, s.exchangeCount + 1)

/-- `assessRisk(uint256)`: stores the risk formulas computed from the
stored order book and the zeroed `DecryptedAssessment` placeholder. -/
def assessRisk (s : ContractState) (exchangeId : Nat) : ContractState :=
  let orderBook := (s.orderBooks exchangeId).getD defaultOrderBook
  let ra : RiskAssessment :=
    { encryptedLiquidityImpact :=
        fheDiv (fheSub orderBook.encryptedBidOrders orderBook.encryptedAskOrders)
          (asEuint32 100)
      encryptedFlashCrashRisk := fheMul orderBook.encryptedOrderFlow (asEuint32 2)
      encryptedMarketInstability :=
        fheAdd (fheMul orderBook.encryptedVolatility (asEuint32 3))
          (fheDiv orderBook.encryptedOrderFlow (asEuint32 5)) }
  { s with
    riskAssessments := fun k => if k = exchangeId then some ra else s.riskAssessments k
    decryptedAssessments := fun k =>
      if k = exchangeId then
        some { liquidityImpact := 0, flashCrashRisk := 0, marketInstability := 0
               isRevealed := false }
      else s.decryptedAssessments k }

/-- `submitEncryptedOrderBook(...)`: allocates an id via `registerExchange`,
stores the order book, then synchronously runs `assessRisk`. -/
def submitEncryptedOrderBook (s : ContractState)
    (encryptedBidOrders encryptedAskOrders encryptedOrderFlow encryptedVolatility
      exchange timestamp : Nat) : ContractState :=
  let r := registerExchange s exchange
  let s1 := r.1
  let exchangeId := r.2
  let s2 := { s1 with
    orderBooks := fun k =>
      if k = exchangeId then
        some { exchangeId := exchangeId
               encryptedBidOrders := encryptedBidOrders
               encryptedAskOrders := encryptedAskOrders
               encryptedOrderFlow := encryptedOrderFlow
               encryptedVolatility := encryptedVolatility
               timestamp := timestamp
               exchange := exchange }
      else s1.orderBooks k }
  assessRisk s2 exchangeId

/-- `requestAssessmentDecryption(uint256)`: owner check, reveal check, then
records `requestToExchangeId[reqId] = exchangeId` for the id `reqId`
returned by `FHE.requestDecryption` (supplied by the environment). -/
def requestAssessmentDecryption (s : ContractState) (sender exchangeId reqId : Nat) :
    Except ContractError ContractState :=
  if sender = ownerOf s exchangeId then
    if revealedOf s exchangeId then .error .alreadyDecrypted
    else
      .ok { s with
        requestToExchangeId := fun r =>
          if r = reqId then exchangeId else s.requestToExchangeId r }
  else .error .notExchangeOwner

/-- `decryptAssessment(uint256, bytes, bytes)`: the assessment-reveal
callback. Checks the request mapping, the reveal flag, the proof, the
decode, and only then writes the three plaintext fields and the flag. -/
def decryptAssessment (s : ContractState) (requestId : Nat) (cleartexts : List Nat)
    (proofOk : Bool) : Except ContractError ContractState :=
  let exchangeId := s.requestToExchangeId requestId
  if exchangeId = 0 then .error .invalidRequest
  else if revealedOf s exchangeId then .error .alreadyDecrypted
  else if proofOk then
    match decode3 cleartexts with
    | none => .error .malformedCleartext
    | some (liq, crash, inst) =>
        .ok { s with
          decryptedAssessments := fun k =>
            if k = exchangeId then
              some { liquidityImpact := liq, flashCrashRisk := crash
                     marketInstability := inst, isRevealed := true }
            else s.decryptedAssessments k }
  else .error .invalidProof

/-- `requestOrderBookDecryption(uint256)`: owner check, then issues a
decryption request whose returned id is NOT recorded anywhere (the source
drops the return value of `FHE.requestDecryption`); no storage changes. -/
def requestOrderBookDecryption (s : ContractState) (sender exchangeId reqId : Nat) :
    Except ContractError ContractState :=
  if sender = ownerOf s exchangeId then .ok s
  else .error .notExchangeOwner

/-- `decryptOrderBook(uint256, bytes, bytes)`: the order-book-reveal
callback. Only verifies the proof and decodes; no request-id lookup and
no state mutation ("Process decrypted order book data as needed"). -/
def decryptOrderBook (s : ContractState) (requestId : Nat) (cleartexts : List Nat)
    (proofOk : Bool) : Except ContractError ContractState :=
  if proofOk then
    match decode4 cleartexts with
    | none => .error .malformedCleartext
    | some _ => .ok s
  else .error .invalidProof

/-! ## Transition system -/

inductive Op where
  | registerExchange (exchange : Nat)
  | submitEncryptedOrderBook
      (encryptedBidOrders encryptedAskOrders encryptedOrderFlow encryptedVolatility
        exchange timestamp : Nat)
  | requestAssessmentDecryption (sender exchangeId reqId : Nat)
  | decryptAssessment (requestId : Nat) (cleartexts : List Nat) (proofOk : Bool)
  | requestOrderBookDecryption (sender exchangeId reqId : Nat)
  | decryptOrderBook (requestId : Nat) (cleartexts : List Nat) (proofOk : Bool)

def step (s : ContractState) : Op → Except ContractError ContractState
  | .registerExchange exchange => .ok (registerExchange s exchange).1
  | .submitEncryptedOrderBook bid ask flow vol exchange ts =>
      .ok (submitEncryptedOrderBook s bid ask flow vol exchange ts)
  | .requestAssessmentDecryption sender e rid => requestAssessmentDecryption s sender e rid
  | .decryptAssessment rid ct pv => decryptAssessment s rid ct pv
  | .requestOrderBookDecryption sender e rid => requestOrderBookDecryption s sender e rid
  | .decryptOrderBook rid ct pv => decryptOrderBook s rid ct pv

/-- EVM revert semantics: a failed call leaves storage untouched. -/
def applyOp (s : ContractState) (op : Op) : ContractState :=
  match step s op with
  | .ok s2 => s2
  | .error _ => s

def run (s : ContractState) (ops : List Op) : ContractState :=
  ops.foldl applyOp s

/-- Well-formedness of an environment-supplied operation: the EVM
guarantees `msg.sender` is never the zero address for the calls that
read it (no private key exists for address zero). -/
def ValidOp : Op → Prop
  | .requestAssessmentDecryption sender _ _ => sender ≠ 0
  | .requestOrderBookDecryption sender _ _ => sender ≠ 0
  | _ => True

inductive Reachable : ContractState → Prop where
  | init : Reachable initState
  | next (op : Op) (hop : ValidOp op) {s : ContractState} (hs : Reachable s) :
      Reachable (applyOp s op)

/-! ## Characterization lemmas for the transition system -/

/-- The risk metrics stored by `assessRisk` for a freshly submitted book,
as a function of the submitted ciphertext values. -/
def riskOf (bid ask flow vol : Nat) : RiskAssessment :=
  { encryptedLiquidityImpact := fheDiv (fheSub bid ask) (asEuint32 100)
    encryptedFlashCrashRisk := fheMul flow (asEuint32 2)
    encryptedMarketInstability :=
      fheAdd (fheMul vol (asEuint32 3)) (fheDiv flow (asEuint32 5)) }

lemma applyOp_registerExchange (s : ContractState) (ex : Nat) :
    applyOp s (Op.registerExchange ex) = { s with exchangeCount := s.exchangeCount + 1 } := rfl

lemma applyOp_submit (s : ContractState) (bid ask flow vol ex ts : Nat) :
    applyOp s (Op.submitEncryptedOrderBook bid ask flow vol ex ts) =
      submitEncryptedOrderBook s bid ask flow vol ex ts := rfl

lemma submit_eq (s : ContractState) (bid ask flow vol ex ts : Nat) :
    submitEncryptedOrderBook s bid ask flow vol ex ts =
      { exchangeCount := s.exchangeCount + 1
        orderBooks := fun k =>
          if k = s.exchangeCount + 1 then
            some { exchangeId := s.exchangeCount + 1
                   encryptedBidOrders := bid
                   encryptedAskOrders := ask
                   encryptedOrderFlow := flow
                   encryptedVolatility := vol
                   timestamp := ts
                   exchange := ex }
          else s.orderBooks k
        riskAssessments := fun k =>
          if k = s.exchangeCount + 1 then some (riskOf bid ask flow vol)
          else s.riskAssessments k
        decryptedAssessments := fun k =>
          if k = s.exchangeCount + 1 then some defaultDecrypted
          else s.decryptedAssessments k
        requestToExchangeId := s.requestToExchangeId } := by
  unfold submitEncryptedOrderBook registerExchange assessRisk riskOf defaultDecrypted
  simp

lemma submit_count (s : ContractState) (bid ask flow vol ex ts : Nat) :
    (submitEncryptedOrderBook s bid ask flow vol ex ts).exchangeCount =
      s.exchangeCount + 1 := by rw [submit_eq]

lemma submit_books (s : ContractState) (bid ask flow vol ex ts k : Nat) :
    (submitEncryptedOrderBook s bid ask flow vol ex ts).orderBooks k =
      (if k = s.exchangeCount + 1 then
        some { exchangeId := s.exchangeCount + 1
               encryptedBidOrders := bid
               encryptedAskOrders := ask
               encryptedOrderFlow := flow
               encryptedVolatility := vol
               timestamp := ts
               exchange := ex }
      else s.orderBooks k) := by rw [submit_eq]

lemma submit_risks (s : ContractState) (bid ask flow vol ex ts k : Nat) :
    (submitEncryptedOrderBook s bid ask flow vol ex ts).riskAssessments k =
      (if k = s.exchangeCount + 1 then some (riskOf bid ask flow vol)
       else s.riskAssessments k) := by rw [submit_eq]

lemma submit_decrs (s : ContractState) (bid ask flow vol ex ts k : Nat) :
    (submitEncryptedOrderBook s bid ask flow vol ex ts).decryptedAssessments k =
      (if k = s.exchangeCount + 1 then some defaultDecrypted
       else s.decryptedAssessments k) := by rw [submit_eq]

lemma submit_reqs (s : ContractState) (bid ask flow vol ex ts : Nat) :
    (submitEncryptedOrderBook s bid ask flow vol ex ts).requestToExchangeId =
      s.requestToExchangeId := by rw [submit_eq]

lemma applyOp_requestOrderBook (s : ContractState) (p e r : Nat) :
    applyOp s (Op.requestOrderBookDecryption p e r) = s := by
  by_cases h : p = ownerOf s e <;> simp [applyOp, step, requestOrderBookDecryption, h]

lemma applyOp_decryptOrderBook (s : ContractState) (rid : Nat) (ct : List Nat) (pv : Bool) :
    applyOp s (Op.decryptOrderBook rid ct pv) = s := by
  cases pv with
  | false => simp [applyOp, step, decryptOrderBook]
  | true => cases hdec : decode4 ct <;> simp [applyOp, step, decryptOrderBook, hdec]

lemma requestAssessment_cases (s : ContractState) (sender e rid : Nat) :
    applyOp s (Op.requestAssessmentDecryption sender e rid) = s ∨
    (sender = ownerOf s e ∧ revealedOf s e = false ∧
      applyOp s (Op.requestAssessmentDecryption sender e rid) =
        { s with requestToExchangeId := fun r =>
            if r = rid then e else s.requestToExchangeId r }) := by
  by_cases hown : sender = ownerOf s e
  · by_cases hrev : revealedOf s e = true
    · left; simp [applyOp, step, requestAssessmentDecryption, hown, hrev]
    · right
      refine ⟨hown, by simpa using hrev, ?_⟩
      simp [applyOp, step, requestAssessmentDecryption, hown, hrev]
  · left; simp [applyOp, step, requestAssessmentDecryption, hown]

lemma decryptAssessment_cases (s : ContractState) (rid : Nat) (ct : List Nat) (pv : Bool) :
    applyOp s (Op.decryptAssessment rid ct pv) = s ∨
    (s.requestToExchangeId rid ≠ 0 ∧ revealedOf s (s.requestToExchangeId rid) = false ∧
      ∃ l c i, decode3 ct = some (l, c, i) ∧
        applyOp s (Op.decryptAssessment rid ct pv) =
          { s with decryptedAssessments := fun k =>
              if k = s.requestToExchangeId rid then
                some { liquidityImpact := l, flashCrashRisk := c
                       marketInstability := i, isRevealed := true }
              else s.decryptedAssessments k }) := by
  by_cases h0 : s.requestToExchangeId rid = 0
  · left; simp [applyOp, step, decryptAssessment, h0]
  · by_cases hrev : revealedOf s (s.requestToExchangeId rid) = true
    · left; simp [applyOp, step, decryptAssessment, h0, hrev]
    · cases pv with
      | false => left; simp [applyOp, step, decryptAssessment, h0, hrev]
      | true =>
        cases hdec : decode3 ct with
        | none => left; simp [applyOp, step, decryptAssessment, h0, hrev, hdec]
        | some t =>
          obtain ⟨l, c, i⟩ := t
          right
          refine ⟨h0, by simpa using hrev, l, c, i, rfl, ?_⟩
          simp [applyOp, step, decryptAssessment, h0, hrev, hdec]

lemma revealed_isSome {s : ContractState} {e : Nat} (h : revealedOf s e = true) :
    (s.decryptedAssessments e).isSome := by
  unfold revealedOf at h
  cases hb : s.decryptedAssessments e
  · rw [hb] at h; simp [defaultDecrypted] at h
  · simp

/-! ## Reachability invariant -/

structure Inv (s : ContractState) : Prop where
  book_bound : ∀ k, (s.orderBooks k).isSome → 1 ≤ k ∧ k ≤ s.exchangeCount
  risk_bound : ∀ k, (s.riskAssessments k).isSome → 1 ≤ k ∧ k ≤ s.exchangeCount
  decr_bound : ∀ k, (s.decryptedAssessments k).isSome → 1 ≤ k ∧ k ≤ s.exchangeCount
  req_book : ∀ r, s.requestToExchangeId r ≠ 0 →
    (s.orderBooks (s.requestToExchangeId r)).isSome
  paired : ∀ k, (s.orderBooks k).isSome →
    (s.riskAssessments k).isSome ∧ (s.decryptedAssessments k).isSome

lemma inv_init : Inv initState := by
  constructor <;> intro k h <;> simp [initState] at h

lemma inv_step (s : ContractState) (op : Op) (hop : ValidOp op) (hI : Inv s) :
    Inv (applyOp s op) := by
  cases op with
  | registerExchange ex =>
      rw [applyOp_registerExchange]
      refine ⟨?_, ?_, ?_, hI.req_book, hI.paired⟩ <;>
        · intro k h
          show 1 ≤ k ∧ k ≤ s.exchangeCount + 1
          have := (by first | exact hI.book_bound k h | exact hI.risk_bound k h
                            | exact hI.decr_bound k h : 1 ≤ k ∧ k ≤ s.exchangeCount)
          omega
  | submitEncryptedOrderBook bid ask flow vol ex ts =>
      rw [applyOp_submit]
      refine ⟨?_, ?_, ?_, ?_, ?_⟩
      · intro k h
        rw [submit_books] at h
        rw [submit_count]
        by_cases hk : k = s.exchangeCount + 1
        · omega
        · rw [if_neg hk] at h
          have := hI.book_bound k h; omega
      · intro k h
        rw [submit_risks] at h
        rw [submit_count]
        by_cases hk : k = s.exchangeCount + 1
        · omega
        · rw [if_neg hk] at h
          have := hI.risk_bound k h; omega
      · intro k h
        rw [submit_decrs] at h
        rw [submit_count]
        by_cases hk : k = s.exchangeCount + 1
        · omega
        · rw [if_neg hk] at h
          have := hI.decr_bound k h; omega
      · intro r h
        rw [submit_reqs] at h
        rw [submit_reqs, submit_books]
        have hb := hI.req_book r h
        by_cases hk : s.requestToExchangeId r = s.exchangeCount + 1 <;> simp [hk, hb]
      · intro k h
        rw [submit_books] at h
        rw [submit_risks, submit_decrs]
        by_cases hk : k = s.exchangeCount + 1
        · simp [hk]
        · rw [if_neg hk] at h
          simp only [hk, if_false]
          exact hI.paired k h
  | requestAssessmentDecryption sender e rid =>
      rcases requestAssessment_cases s sender e rid with h | ⟨hown, hrev, h⟩
      · rw [h]; exact hI
      · rw [h]
        have hs0 : sender ≠ 0 := hop
        have hbe : (s.orderBooks e).isSome := by
          by_contra hnone
          have hzero : ownerOf s e = 0 := by
            unfold ownerOf
            cases hb : s.orderBooks e with
            | none => simp [defaultOrderBook]
            | some ob => rw [hb] at hnone; simp at hnone
          exact hs0 (hown.trans hzero)
        refine ⟨hI.book_bound, hI.risk_bound, hI.decr_bound, ?_, hI.paired⟩
        intro r h
        by_cases hr : r = rid
        · subst hr; simpa using hbe
        · simp only [hr, if_false] at h ⊢
          exact hI.req_book r h
  | decryptAssessment rid ct pv =>
      rcases decryptAssessment_cases s rid ct pv with h | ⟨h0, hrev, l, c, i, hdec, h⟩
      · rw [h]; exact hI
      · rw [h]
        have hbe : (s.orderBooks (s.requestToExchangeId rid)).isSome := hI.req_book rid h0
        have hbound := hI.book_bound _ hbe
        refine ⟨hI.book_bound, hI.risk_bound, ?_, hI.req_book, ?_⟩
        · intro k hk
          by_cases hke : k = s.requestToExchangeId rid
          · subst hke; exact hbound
          · simp only [hke, if_false] at hk
            exact hI.decr_bound k hk
        · intro k hk
          refine ⟨(hI.paired k hk).1, ?_⟩
          by_cases hke : k = s.requestToExchangeId rid
          · simp [hke]
          · simp only [hke, if_false]
            exact (hI.paired k hk).2
  | requestOrderBookDecryption sender e rid =>
      rw [applyOp_requestOrderBook]; exact hI
  | decryptOrderBook rid ct pv =>
      rw [applyOp_decryptOrderBook]; exact hI

lemma reachable_inv {s : ContractState} (hs : Reachable s) : Inv s := by
  induction hs with
  | init => exact inv_init
  | next op hop hs ih => exact inv_step _ op hop ih

/-! ## Arithmetic facts about the 32-bit semantics -/

lemma fheSub_of_le {a b : Nat} (ha : a < U32) (hb : b < U32) (hle : b ≤ a) :
    fheSub a b = a - b := by
  unfold fheSub
  rw [Nat.mod_eq_of_lt ha, Nat.mod_eq_of_lt hb]
  have h1 : a + (U32 - b) = U32 + (a - b) := by omega
  rw [h1, Nat.add_mod_left, Nat.mod_eq_of_lt (by omega)]

lemma fheDiv_of_lt {a b : Nat} (ha : a < U32) (hb : b < U32) : fheDiv a b = a / b := by
  unfold fheDiv
  rw [Nat.mod_eq_of_lt ha, Nat.mod_eq_of_lt hb]

lemma fheMul_of_lt {a b : Nat} (ha : a < U32) (hb : b < U32) : fheMul a b = a * b % U32 := by
  unfold fheMul
  rw [Nat.mod_eq_of_lt ha, Nat.mod_eq_of_lt hb]

lemma fheAdd_eq (a b : Nat) : fheAdd a b = (a + b) % U32 := by
  unfold fheAdd
  rw [← Nat.add_mod]

/-- For in-range inputs (no 32-bit wrap in the subtraction), the stored risk
metrics are the plain integer formulas of the spec, each taken mod 2^32. -/
lemma riskOf_spec {bid ask flow vol : Nat} (hbid : bid < U32) (hask : ask < U32)
    (hflow : flow < U32) (hvol : vol < U32) (hle : ask ≤ bid) :
    riskOf bid ask flow vol =
      { encryptedLiquidityImpact := (bid - ask) / 100
        encryptedFlashCrashRisk := flow * 2 % U32
        encryptedMarketInstability := (vol * 3 + flow / 5) % U32 } := by
  have h100 : asEuint32 100 = 100 := by decide
  have h2 : asEuint32 2 = 2 := by decide
  have h3 : asEuint32 3 = 3 := by decide
  have h5 : asEuint32 5 = 5 := by decide
  have hU : (100 : Nat) < U32 ∧ (2 : Nat) < U32 ∧ (3 : Nat) < U32 ∧ (5 : Nat) < U32 := by decide
  have e1 : fheDiv (fheSub bid ask) (asEuint32 100) = (bid - ask) / 100 := by
    rw [h100, fheSub_of_le hbid hask hle, fheDiv_of_lt (by omega) hU.1]
  have e2 : fheMul flow (asEuint32 2) = flow * 2 % U32 := by
    rw [h2, fheMul_of_lt hflow hU.2.1]
  have e3 : fheAdd (fheMul vol (asEuint32 3)) (fheDiv flow (asEuint32 5)) =
      (vol * 3 + flow / 5) % U32 := by
    rw [h3, h5, fheMul_of_lt hvol hU.2.2.1, fheDiv_of_lt hflow hU.2.2.2, fheAdd_eq,
      Nat.mod_add_mod]
  unfold riskOf
  rw [e1, e2, e3]

/-! ## Inversion of a successful assessment callback -/

lemma decryptAssessment_ok_inv {s s2 : ContractState} {rid : Nat} {ct : List Nat}
    {pv : Bool} (h : decryptAssessment s rid ct pv = .ok s2) :
    s.requestToExchangeId rid ≠ 0 ∧
    revealedOf s (s.requestToExchangeId rid) = false ∧ pv = true ∧
    ∃ l c i, decode3 ct = some (l, c, i) ∧
      s2 = { s with decryptedAssessments := fun k =>
              if k = s.requestToExchangeId rid then
                some { liquidityImpact := l, flashCrashRisk := c
                       marketInstability := i, isRevealed := true }
              else s.decryptedAssessments k } := by
  unfold decryptAssessment at h
  by_cases h0 : s.requestToExchangeId rid = 0
  · rw [if_pos h0] at h; cases h
  · rw [if_neg h0] at h
    by_cases hrev : revealedOf s (s.requestToExchangeId rid) = true
    · rw [if_pos hrev] at h; cases h
    · rw [if_neg hrev] at h
      cases pv with
      | false => simp only [Bool.false_eq_true, if_false] at h; cases h
      | true =>
        rw [if_pos rfl] at h
        cases hdec : decode3 ct with
        | none => rw [hdec] at h; cases h
        | some t =>
          obtain ⟨l, c, i⟩ := t
          rw [hdec] at h
          refine ⟨h0, by simpa using hrev, rfl, l, c, i, rfl, ?_⟩
          cases h
          rfl

/-! ## Allocation trace and order-book counting -/

def isOkResult (r : Except ContractError ContractState) : Bool :=
  match r with
  | .ok _ => true
  | .error _ => false

def allocates : Op → Bool
  | .registerExchange _ => true
  | .submitEncryptedOrderBook _ _ _ _ _ _ => true
  | _ => false

/-- The ExchangeIds allocated along a trace (by direct `registerExchange`
calls and by submissions, which allocate through `registerExchange`). -/
def allocs : ContractState → List Op → List Nat
  | _, [] => []
  | s, op :: ops =>
    if allocates op then (s.exchangeCount + 1) :: allocs (applyOp s op) ops
    else allocs (applyOp s op) ops

lemma applyOp_count (s : ContractState) (op : Op) :
    (applyOp s op).exchangeCount =
      if allocates op then s.exchangeCount + 1 else s.exchangeCount := by
  cases op with
  | registerExchange ex => rw [applyOp_registerExchange]; rfl
  | submitEncryptedOrderBook bid ask flow vol ex ts =>
      rw [applyOp_submit, submit_count]; rfl
  | requestAssessmentDecryption p e r =>
      rcases requestAssessment_cases s p e r with h | ⟨_, _, h⟩ <;> rw [h] <;> rfl
  | decryptAssessment rid ct pv =>
      rcases decryptAssessment_cases s rid ct pv with h | ⟨_, _, l, c, i, _, h⟩ <;>
        rw [h] <;> rfl
  | requestOrderBookDecryption p e r => rw [applyOp_requestOrderBook]; rfl
  | decryptOrderBook rid ct pv => rw [applyOp_decryptOrderBook]; rfl

lemma allocs_spec (ops : List Op) : ∀ s : ContractState,
    (∀ j ∈ allocs s ops, s.exchangeCount < j) ∧
    List.Chain' (· < ·) (allocs s ops) ∧
    (∀ j, (allocs s ops).head? = some j → j = s.exchangeCount + 1) := by
  induction ops with
  | nil => intro s; exact ⟨by simp [allocs], by simp [allocs], by simp [allocs]⟩
  | cons op ops ih =>
    intro s
    obtain ⟨hmem, hchain, hhead⟩ := ih (applyOp s op)
    by_cases ha : allocates op
    · have hcount : (applyOp s op).exchangeCount = s.exchangeCount + 1 := by
        rw [applyOp_count, if_pos ha]
      rw [hcount] at hmem hhead
      have hall : allocs s (op :: ops) = (s.exchangeCount + 1) :: allocs (applyOp s op) ops := by
        simp only [allocs, if_pos ha]
      refine ⟨?_, ?_, ?_⟩
      · intro j hj
        rw [hall] at hj
        rcases List.mem_cons.mp hj with rfl | hj
        · omega
        · have := hmem j hj; omega
      · rw [hall, List.chain'_cons']
        refine ⟨?_, hchain⟩
        intro b hb
        have hb2 : (allocs (applyOp s op) ops).head? = some b := hb
        have := hhead b hb2
        omega
      · intro j hj
        rw [hall] at hj
        simp at hj
        omega
    · have hcount : (applyOp s op).exchangeCount = s.exchangeCount := by
        rw [applyOp_count, if_neg ha]
      rw [hcount] at hmem hhead
      have hall : allocs s (op :: ops) = allocs (applyOp s op) ops := by
        simp only [allocs, if_neg ha]
      rw [hall]
      exact ⟨hmem, hchain, hhead⟩

/-- Number of stored order books; by the reachability invariant every
stored book has a key in [1, exchangeCount], so this counts them all. -/
def numBooks (s : ContractState) : Nat :=
  (List.range s.exchangeCount).countP (fun i => (s.orderBooks (i + 1)).isSome)

lemma numBooks_le (s : ContractState) : numBooks s ≤ s.exchangeCount := by
  unfold numBooks
  calc (List.range s.exchangeCount).countP (fun i => (s.orderBooks (i + 1)).isSome)
      ≤ (List.range s.exchangeCount).length := List.countP_le_length _
    _ = s.exchangeCount := List.length_range s.exchangeCount

lemma numBooks_register (s : ContractState) (hI : Inv s) (ex : Nat) :
    numBooks (applyOp s (Op.registerExchange ex)) = numBooks s := by
  rw [applyOp_registerExchange]
  show (List.range (s.exchangeCount + 1)).countP (fun i => (s.orderBooks (i + 1)).isSome) = _
  rw [List.range_succ, List.countP_append]
  have hb : (s.orderBooks (s.exchangeCount + 1)).isSome = false := by
    cases hob : s.orderBooks (s.exchangeCount + 1) with
    | none => rfl
    | some ob =>
        have := hI.book_bound (s.exchangeCount + 1) (by simp [hob])
        omega
  simp [List.countP_cons, hb, numBooks]

lemma numBooks_submit (s : ContractState) (hI : Inv s) (bid ask flow vol ex ts : Nat) :
    numBooks (applyOp s (Op.submitEncryptedOrderBook bid ask flow vol ex ts)) =
      numBooks s + 1 := by
  rw [applyOp_submit]
  unfold numBooks
  simp only [submit_count, submit_books]
  rw [List.range_succ, List.countP_append]
  have hlast : ((List.range 1).map (fun _ => s.exchangeCount)).length = 1 := by simp
  have hcong : (List.range s.exchangeCount).countP
      (fun i => (if i + 1 = s.exchangeCount + 1 then
        some { exchangeId := s.exchangeCount + 1, encryptedBidOrders := bid
               encryptedAskOrders := ask, encryptedOrderFlow := flow
               encryptedVolatility := vol, timestamp := ts, exchange := ex }
      else s.orderBooks (i + 1)).isSome) =
      (List.range s.exchangeCount).countP (fun i => (s.orderBooks (i + 1)).isSome) := by
    apply List.countP_congr
    intro i hi
    have hilt : i < s.exchangeCount := List.mem_range.mp hi
    have hne : i + 1 ≠ s.exchangeCount + 1 := by omega
    rw [if_neg hne]
  rw [hcong]
  simp [List.countP_cons]

/-! ## Claim theorems -/

/-- Claim C3: `assessRisk` stores exactly
`encryptedLiquidityImpact = (bidOrders - askOrders) / 100`,
`encryptedFlashCrashRisk = orderFlow * 2`,
`encryptedMarketInstability = (volatility * 3) + (orderFlow / 5)`,
with exactly these operand orders (for in-range operands, i.e. 32-bit
values with no wrap in the subtraction); and on the end-to-end scenario
bid=500, ask=300, flow=50, volatility=20 the ciphertexts represent
(2, 100, 70) and a completed reveal yields
`DecryptedAssessment {2, 100, 70, revealed: true}`. -/
theorem C3_assessRisk_formulas (s : ContractState) (bid ask flow vol ex ts : Nat)
    (hbid : bid < U32) (hask : ask < U32) (hflow : flow < U32) (hvol : vol < U32)
    (hle : ask ≤ bid) :
    (applyOp s (Op.submitEncryptedOrderBook bid ask flow vol ex ts)).riskAssessments
        (s.exchangeCount + 1) =
      some { encryptedLiquidityImpact := (bid - ask) / 100
             encryptedFlashCrashRisk := flow * 2 % U32
             encryptedMarketInstability := (vol * 3 + flow / 5) % U32 } ∧
    (run initState [Op.submitEncryptedOrderBook 500 300 50 20 7 1000,
        Op.requestAssessmentDecryption 7 1 5,
        Op.decryptAssessment 5 [2, 100, 70] true]).riskAssessments 1 =
      some { encryptedLiquidityImpact := 2, encryptedFlashCrashRisk := 100
             encryptedMarketInstability := 70 } ∧
    (run initState [Op.submitEncryptedOrderBook 500 300 50 20 7 1000,
        Op.requestAssessmentDecryption 7 1 5,
        Op.decryptAssessment 5 [2, 100, 70] true]).decryptedAssessments 1 =
      some { liquidityImpact := 2, flashCrashRisk := 100, marketInstability := 70
             isRevealed := true } := by
  refine ⟨?_, by decide, by decide⟩
  rw [applyOp_submit, submit_risks, if_pos rfl, riskOf_spec hbid hask hflow hvol hle]

/-- Witness for C3 at the spec's concrete scenario. -/
theorem C3_assessRisk_formulas_witness :
    (applyOp initState (Op.submitEncryptedOrderBook 500 300 50 20 7 1000)).riskAssessments 1 =
      some { encryptedLiquidityImpact := (500 - 300) / 100
             encryptedFlashCrashRisk := 50 * 2 % U32
             encryptedMarketInstability := (20 * 3 + 50 / 5) % U32 } :=
  (C3_assessRisk_formulas initState 500 300 50 20 7 1000 (by decide) (by decide)
    (by decide) (by decide) (by decide)).1

/-- Claim C5: immediately after every successful submission all three
records exist for the new ExchangeId, with the DecryptedAssessment
initialized to `{0, 0, 0, revealed: false}`; and in every reachable
state an OrderBook is always paired with its RiskAssessment and
DecryptedAssessment. -/
theorem C5_submission_atomic (s : ContractState) (hs : Reachable s) :
    (∀ bid ask flow vol ex ts,
      ((applyOp s (Op.submitEncryptedOrderBook bid ask flow vol ex ts)).orderBooks
          (s.exchangeCount + 1)).isSome ∧
      ((applyOp s (Op.submitEncryptedOrderBook bid ask flow vol ex ts)).riskAssessments
          (s.exchangeCount + 1)).isSome ∧
      (applyOp s (Op.submitEncryptedOrderBook bid ask flow vol ex ts)).decryptedAssessments
          (s.exchangeCount + 1) =
        some { liquidityImpact := 0, flashCrashRisk := 0, marketInstability := 0
               isRevealed := false }) ∧
    (∀ e, (s.orderBooks e).isSome →
      (s.riskAssessments e).isSome ∧ (s.decryptedAssessments e).isSome) := by
  refine ⟨?_, (reachable_inv hs).paired⟩
  intro bid ask flow vol ex ts
  rw [applyOp_submit]
  refine ⟨?_, ?_, ?_⟩
  · rw [submit_books, if_pos rfl]; rfl
  · rw [submit_risks, if_pos rfl]; rfl
  · rw [submit_decrs, if_pos rfl]; rfl

/-- Witness for C5: the first submission from the initial state creates
the zeroed DecryptedAssessment at ExchangeId 1. -/
theorem C5_submission_atomic_witness :
    (applyOp initState (Op.submitEncryptedOrderBook 500 300 50 20 7 1000)).decryptedAssessments
        1 =
      some { liquidityImpact := 0, flashCrashRisk := 0, marketInstability := 0
             isRevealed := false } :=
  ((C5_submission_atomic initState Reachable.init).1 500 300 50 20 7 1000).2.2

/-- Claim C8: along every trace from the initial state, allocated
ExchangeIds are pairwise strictly increasing, never zero, and the first
allocated ExchangeId is 1. -/
theorem C8_exchangeIds_increasing (ops : List Op) :
    List.Pairwise (· < ·) (allocs initState ops) ∧
    (∀ j ∈ allocs initState ops, j ≠ 0) ∧
    (∀ j, (allocs initState ops).head? = some j → j = 1) := by
  obtain ⟨hmem, hchain, hhead⟩ := allocs_spec ops initState
  have h0 : initState.exchangeCount = 0 := rfl
  rw [h0] at hmem hhead
  refine ⟨List.chain'_iff_pairwise.mp hchain, ?_, ?_⟩
  · intro j hj
    have := hmem j hj
    omega
  · intro j hj
    have := hhead j hj
    omega

/-- Witness for C8 on a concrete two-allocation trace. -/
theorem C8_exchangeIds_increasing_witness :
    allocs initState [Op.registerExchange 9, Op.submitEncryptedOrderBook 1 1 1 1 2 3] =
      [1, 2] ∧
    List.Pairwise (· < ·)
      (allocs initState [Op.registerExchange 9, Op.submitEncryptedOrderBook 1 1 1 1 2 3]) ∧
    (1 : Nat) = 1 :=
  ⟨by decide,
   (C8_exchangeIds_increasing [Op.registerExchange 9, Op.submitEncryptedOrderBook 1 1 1 1 2 3]).1,
   (C8_exchangeIds_increasing [Op.registerExchange 9, Op.submitEncryptedOrderBook 1 1 1 1 2 3]).2.2
     1 (by decide)⟩

/-- Claim C10: `registerExchange` is callable by anyone with any address
argument; it increments `exchangeCount` by exactly 1 and returns the new
value, leaving the four tables untouched, so counter values can be
consumed with no OrderBook ever stored for them, and a submission that
follows such a call receives an ExchangeId strictly greater than the
number of stored OrderBooks. -/
theorem C10_registerExchange_frame (s : ContractState) (hs : Reachable s) (ex : Nat) :
    step s (Op.registerExchange ex) = .ok { s with exchangeCount := s.exchangeCount + 1 } ∧
    (registerExchange s ex).2 = s.exchangeCount + 1 ∧
    (applyOp s (Op.registerExchange ex)).orderBooks = s.orderBooks ∧
    (applyOp s (Op.registerExchange ex)).riskAssessments = s.riskAssessments ∧
    (applyOp s (Op.registerExchange ex)).decryptedAssessments = s.decryptedAssessments ∧
    (applyOp s (Op.registerExchange ex)).requestToExchangeId = s.requestToExchangeId ∧
    numBooks (applyOp s (Op.registerExchange ex)) <
      (applyOp s (Op.registerExchange ex)).exchangeCount ∧
    (∀ bid ask flow vol ex2 ts,
      numBooks (applyOp (applyOp s (Op.registerExchange ex))
          (Op.submitEncryptedOrderBook bid ask flow vol ex2 ts)) <
        (applyOp s (Op.registerExchange ex)).exchangeCount + 1) := by
  have hI : Inv s := reachable_inv hs
  have hI1 : Inv (applyOp s (Op.registerExchange ex)) :=
    inv_step s (Op.registerExchange ex) trivial hI
  have hreg : numBooks (applyOp s (Op.registerExchange ex)) = numBooks s :=
    numBooks_register s hI ex
  have hle : numBooks s ≤ s.exchangeCount := numBooks_le s
  have hcount : (applyOp s (Op.registerExchange ex)).exchangeCount = s.exchangeCount + 1 := by
    rw [applyOp_registerExchange]
  refine ⟨rfl, rfl, rfl, rfl, rfl, rfl, ?_, ?_⟩
  · rw [hreg, hcount]; omega
  · intro bid ask flow vol ex2 ts
    rw [numBooks_submit _ hI1, hreg, hcount]
    omega

/-- Witness for C10 from the initial state. -/
theorem C10_registerExchange_frame_witness :
    (registerExchange initState 3).2 = 1 ∧
    numBooks (applyOp (applyOp initState (Op.registerExchange 3))
        (Op.submitEncryptedOrderBook 1 2 3 4 5 6)) <
      (applyOp initState (Op.registerExchange 3)).exchangeCount + 1 :=
  ⟨(C10_registerExchange_frame initState Reachable.init 3).2.1,
   (C10_registerExchange_frame initState Reachable.init 3).2.2.2.2.2.2.2 1 2 3 4 5 6⟩

/-- Claim C4: a caller that is not the stored owner
(`orderBooks[exchangeId].exchange`) always gets `Unauthorized`
("Not exchange owner") from both reveal-request entry points, with no
state mutation and no pending request recorded. -/
theorem C4_nonowner_rejected (s : ContractState) (p e : Nat) (hp : p ≠ ownerOf s e) :
    (∀ rid, step s (Op.requestAssessmentDecryption p e rid) =
        .error .notExchangeOwner ∧
      applyOp s (Op.requestAssessmentDecryption p e rid) = s) ∧
    (∀ rid, step s (Op.requestOrderBookDecryption p e rid) =
        .error .notExchangeOwner ∧
      applyOp s (Op.requestOrderBookDecryption p e rid) = s) := by
  constructor <;> intro rid <;> constructor <;>
    simp [step, applyOp, requestAssessmentDecryption, requestOrderBookDecryption, hp]

/-- Witness for C4: caller 8 is rejected on the book owned by 7. -/
theorem C4_nonowner_rejected_witness :
    step (applyOp initState (Op.submitEncryptedOrderBook 500 300 50 20 7 1000))
        (Op.requestAssessmentDecryption 8 1 5) = .error .notExchangeOwner ∧
    step (applyOp initState (Op.submitEncryptedOrderBook 500 300 50 20 7 1000))
        (Op.requestOrderBookDecryption 8 1 5) = .error .notExchangeOwner :=
  ⟨((C4_nonowner_rejected (applyOp initState (Op.submitEncryptedOrderBook 500 300 50 20 7 1000))
      8 1 (by decide)).1 5).1,
   ((C4_nonowner_rejected (applyOp initState (Op.submitEncryptedOrderBook 500 300 50 20 7 1000))
      8 1 (by decide)).2 5).1⟩

/-- Claim C2: a callback with a failed proof check or undecodable
cleartext bytes performs zero state mutation; the proof check precedes
the decode (and every write), so an invalid proof errors with
`InvalidProof` even on decodable cleartexts, and a valid proof with
undecodable cleartexts errors with `MalformedCleartext`. -/
theorem C2_failed_callback_no_mutation (s : ContractState) (rid : Nat) (ct : List Nat) :
    applyOp s (Op.decryptAssessment rid ct false) = s ∧
    (∀ pv, decode3 ct = none → applyOp s (Op.decryptAssessment rid ct pv) = s) ∧
    (s.requestToExchangeId rid ≠ 0 →
      revealedOf s (s.requestToExchangeId rid) = false →
      step s (Op.decryptAssessment rid ct false) = .error .invalidProof) ∧
    (s.requestToExchangeId rid ≠ 0 →
      revealedOf s (s.requestToExchangeId rid) = false → decode3 ct = none →
      step s (Op.decryptAssessment rid ct true) = .error .malformedCleartext) := by
  refine ⟨?_, ?_, ?_, ?_⟩
  · by_cases h0 : s.requestToExchangeId rid = 0
    · simp [applyOp, step, decryptAssessment, h0]
    · by_cases hrev : revealedOf s (s.requestToExchangeId rid) = true <;>
        simp [applyOp, step, decryptAssessment, h0, hrev]
  · intro pv hdec
    by_cases h0 : s.requestToExchangeId rid = 0
    · simp [applyOp, step, decryptAssessment, h0]
    · by_cases hrev : revealedOf s (s.requestToExchangeId rid) = true <;> cases pv <;>
        simp [applyOp, step, decryptAssessment, h0, hrev, hdec]
  · intro h0 hrev
    simp [step, decryptAssessment, h0, hrev]
  · intro h0 hrev hdec
    simp [step, decryptAssessment, h0, hrev, hdec]

/-- Witness for C2 on a live pending request: an invalid proof and a
malformed cleartext each revert with the right reason. -/
theorem C2_failed_callback_no_mutation_witness :
    step (run initState [Op.submitEncryptedOrderBook 500 300 50 20 7 1000,
        Op.requestAssessmentDecryption 7 1 5])
      (Op.decryptAssessment 5 [2, 100, 70] false) = .error .invalidProof ∧
    step (run initState [Op.submitEncryptedOrderBook 500 300 50 20 7 1000,
        Op.requestAssessmentDecryption 7 1 5])
      (Op.decryptAssessment 5 [1, 2] true) = .error .malformedCleartext ∧
    applyOp (run initState [Op.submitEncryptedOrderBook 500 300 50 20 7 1000,
        Op.requestAssessmentDecryption 7 1 5])
      (Op.decryptAssessment 5 [2, 100, 70] false) =
      run initState [Op.submitEncryptedOrderBook 500 300 50 20 7 1000,
        Op.requestAssessmentDecryption 7 1 5] :=
  ⟨(C2_failed_callback_no_mutation (run initState
      [Op.submitEncryptedOrderBook 500 300 50 20 7 1000,
       Op.requestAssessmentDecryption 7 1 5]) 5 [2, 100, 70]).2.2.1
      (by decide) (by decide),
   (C2_failed_callback_no_mutation (run initState
      [Op.submitEncryptedOrderBook 500 300 50 20 7 1000,
       Op.requestAssessmentDecryption 7 1 5]) 5 [1, 2]).2.2.2
      (by decide) (by decide) (by decide),
   (C2_failed_callback_no_mutation (run initState
      [Op.submitEncryptedOrderBook 500 300 50 20 7 1000,
       Op.requestAssessmentDecryption 7 1 5]) 5 [2, 100, 70]).1⟩

/-- Claim C1: once an exchangeId is revealed, every further
`requestAssessmentDecryption` for it fails (with `AlreadyRevealed` when
the owner calls), every further `decryptAssessment` whose requestId maps
to it fails with `AlreadyRevealed`, both leave the state unchanged, and
no single step from a reachable state can change (in particular unset)
its DecryptedAssessment record, so the plaintext fields are committed at
most once and a duplicate callback delivery is a no-op. -/
theorem C1_reveal_terminal (s : ContractState) (hs : Reachable s) (e : Nat)
    (hrev : revealedOf s e = true) :
    (∀ p rid, ∃ err, step s (Op.requestAssessmentDecryption p e rid) = .error err) ∧
    (∀ rid, step s (Op.requestAssessmentDecryption (ownerOf s e) e rid) =
      .error .alreadyDecrypted) ∧
    (∀ p rid, applyOp s (Op.requestAssessmentDecryption p e rid) = s) ∧
    (∀ rid ct pv, s.requestToExchangeId rid = e →
      step s (Op.decryptAssessment rid ct pv) = .error .alreadyDecrypted ∧
      applyOp s (Op.decryptAssessment rid ct pv) = s) ∧
    (∀ op, (applyOp s op).decryptedAssessments e = s.decryptedAssessments e) := by
  have hbound : 1 ≤ e ∧ e ≤ s.exchangeCount :=
    (reachable_inv hs).decr_bound e (revealed_isSome hrev)
  have he0 : e ≠ 0 := by omega
  refine ⟨?_, ?_, ?_, ?_, ?_⟩
  · intro p rid
    by_cases hp : p = ownerOf s e
    · exact ⟨.alreadyDecrypted, by simp [step, requestAssessmentDecryption, hp, hrev]⟩
    · exact ⟨.notExchangeOwner, by simp [step, requestAssessmentDecryption, hp]⟩
  · intro rid
    simp [step, requestAssessmentDecryption, hrev]
  · intro p rid
    by_cases hp : p = ownerOf s e <;>
      simp [applyOp, step, requestAssessmentDecryption, hp, hrev]
  · intro rid ct pv hmap
    have h0 : s.requestToExchangeId rid ≠ 0 := by rw [hmap]; exact he0
    constructor
    · simp [step, decryptAssessment, hmap, he0, hrev]
    · simp [applyOp, step, decryptAssessment, hmap, he0, hrev]
  · intro op
    cases op with
    | registerExchange ex => rfl
    | submitEncryptedOrderBook bid ask flow vol ex ts =>
        rw [applyOp_submit, submit_decrs, if_neg (by omega)]
    | requestAssessmentDecryption p e2 rid =>
        rcases requestAssessment_cases s p e2 rid with h | ⟨_, _, h⟩ <;> rw [h]
    | decryptAssessment rid ct pv =>
        rcases decryptAssessment_cases s rid ct pv with h | ⟨h0, hrev2, l, c, i, hdec, h⟩
        · rw [h]
        · rw [h]
          have hne : e ≠ s.requestToExchangeId rid := by
            intro heq
            rw [← heq, hrev] at hrev2
            simp at hrev2
          simp [hne]
    | requestOrderBookDecryption p e2 rid => rw [applyOp_requestOrderBook]
    | decryptOrderBook rid ct pv => rw [applyOp_decryptOrderBook]

/-- Witness for C1 on a concretely revealed exchangeId. -/
theorem C1_reveal_terminal_witness :
    revealedOf (run initState [Op.submitEncryptedOrderBook 500 300 50 20 7 1000,
        Op.requestAssessmentDecryption 7 1 5,
        Op.decryptAssessment 5 [2, 100, 70] true]) 1 = true ∧
    step (run initState [Op.submitEncryptedOrderBook 500 300 50 20 7 1000,
        Op.requestAssessmentDecryption 7 1 5,
        Op.decryptAssessment 5 [2, 100, 70] true])
      (Op.requestAssessmentDecryption 7 1 9) = .error .alreadyDecrypted ∧
    step (run initState [Op.submitEncryptedOrderBook 500 300 50 20 7 1000,
        Op.requestAssessmentDecryption 7 1 5,
        Op.decryptAssessment 5 [2, 100, 70] true])
      (Op.decryptAssessment 5 [2, 100, 70] true) = .error .alreadyDecrypted := by
  have hreach : Reachable (run initState [Op.submitEncryptedOrderBook 500 300 50 20 7 1000,
      Op.requestAssessmentDecryption 7 1 5,
      Op.decryptAssessment 5 [2, 100, 70] true]) :=
    Reachable.next (Op.decryptAssessment 5 [2, 100, 70] true) trivial
      (Reachable.next (Op.requestAssessmentDecryption 7 1 5)
          (show (7 : Nat) ≠ 0 by decide)
        (Reachable.next (Op.submitEncryptedOrderBook 500 300 50 20 7 1000) trivial
          Reachable.init))
  have h := C1_reveal_terminal _ hreach 1 (by decide)
  exact ⟨by decide, h.2.1 9, (h.2.2.2.1 5 [2, 100, 70] true (by decide)).1⟩

/-- Claim C6 counterexample: in the initial state request id 7 maps to no
pending entry, yet the order-book callback `decryptOrderBook` with a
valid proof and well-formed cleartexts succeeds instead of failing with
`UnknownRequest` — the unknown-request check exists only in
`decryptAssessment`. -/
theorem C6_counterexample :
    initState.requestToExchangeId 7 = 0 ∧
    step initState (Op.decryptOrderBook 7 [1, 2, 3, 4] true) = .ok initState :=
  ⟨rfl, rfl⟩

/-- Claim C6 (amended): the assessment callback `decryptAssessment` fails
with `UnknownRequest` ("Invalid request") and mutates no state whenever
the requestId maps to no pending entry; the order-book callback
`decryptOrderBook` performs no unknown-request check at all, but never
mutates state regardless of its arguments. -/
theorem C6_unknown_request (s : ContractState) (rid : Nat) (ct : List Nat) (pv : Bool)
    (h0 : s.requestToExchangeId rid = 0) :
    step s (Op.decryptAssessment rid ct pv) = .error .invalidRequest ∧
    applyOp s (Op.decryptAssessment rid ct pv) = s ∧
    (∀ s2 rid2 ct2 pv2, applyOp s2 (Op.decryptOrderBook rid2 ct2 pv2) = s2) :=
  ⟨by simp [step, decryptAssessment, h0],
   by simp [applyOp, step, decryptAssessment, h0],
   fun s2 rid2 ct2 pv2 => applyOp_decryptOrderBook s2 rid2 ct2 pv2⟩

/-- Witness for the amended C6 at the initial state. -/
theorem C6_unknown_request_witness :
    step initState (Op.decryptAssessment 7 [2, 100, 70] true) = .error .invalidRequest ∧
    applyOp initState (Op.decryptAssessment 7 [2, 100, 70] true) = initState :=
  ⟨(C6_unknown_request initState 7 [2, 100, 70] true rfl).1,
   (C6_unknown_request initState 7 [2, 100, 70] true rfl).2.1⟩

/-- Claim C7 counterexample: after a valid first assessment callback the
reveal is committed, yet request id 5 still maps to exchangeId 1 — the
pending entry keyed by the requestId is never removed. -/
theorem C7_counterexample :
    (run initState [Op.submitEncryptedOrderBook 500 300 50 20 7 1000,
        Op.requestAssessmentDecryption 7 1 5,
        Op.decryptAssessment 5 [2, 100, 70] true]).decryptedAssessments 1 =
      some { liquidityImpact := 2, flashCrashRisk := 100, marketInstability := 70
             isRevealed := true } ∧
    (run initState [Op.submitEncryptedOrderBook 500 300 50 20 7 1000,
        Op.requestAssessmentDecryption 7 1 5,
        Op.decryptAssessment 5 [2, 100, 70] true]).requestToExchangeId 5 = 1 := by
  exact ⟨by decide, by decide⟩

/-- Claim C7 (amended): a successful first assessment callback commits
the three decoded plaintext fields and sets `revealed = true`, but does
NOT remove the request entry: afterwards the requestId still maps to the
same (nonzero) exchangeId; replay is blocked only by the revealed flag. -/
theorem C7_commit_keeps_request_entry (s s2 : ContractState) (rid : Nat)
    (ct : List Nat) (pv : Bool)
    (h : step s (Op.decryptAssessment rid ct pv) = .ok s2) :
    s.requestToExchangeId rid ≠ 0 ∧
    s2.requestToExchangeId rid = s.requestToExchangeId rid ∧
    revealedOf s2 (s.requestToExchangeId rid) = true ∧
    ∃ l c i, decode3 ct = some (l, c, i) ∧
      s2.decryptedAssessments (s.requestToExchangeId rid) =
        some { liquidityImpact := l, flashCrashRisk := c, marketInstability := i
               isRevealed := true } := by
  replace h : decryptAssessment s rid ct pv = .ok s2 := h
  obtain ⟨h0, hrev, hpv, l, c, i, hdec, hs2⟩ := decryptAssessment_ok_inv h
  subst hs2
  refine ⟨h0, rfl, ?_, l, c, i, hdec, ?_⟩
  · unfold revealedOf
    simp
  · simp

/-- Witness for the amended C7 on the concrete reveal trace. -/
theorem C7_commit_keeps_request_entry_witness :
    (run initState [Op.submitEncryptedOrderBook 500 300 50 20 7 1000,
        Op.requestAssessmentDecryption 7 1 5]).requestToExchangeId 5 ≠ 0 ∧
    revealedOf (run initState [Op.submitEncryptedOrderBook 500 300 50 20 7 1000,
        Op.requestAssessmentDecryption 7 1 5,
        Op.decryptAssessment 5 [2, 100, 70] true])
      ((run initState [Op.submitEncryptedOrderBook 500 300 50 20 7 1000,
        Op.requestAssessmentDecryption 7 1 5]).requestToExchangeId 5) = true :=
  ⟨(C7_commit_keeps_request_entry
      (run initState [Op.submitEncryptedOrderBook 500 300 50 20 7 1000,
        Op.requestAssessmentDecryption 7 1 5])
      (run initState [Op.submitEncryptedOrderBook 500 300 50 20 7 1000,
        Op.requestAssessmentDecryption 7 1 5,
        Op.decryptAssessment 5 [2, 100, 70] true])
      5 [2, 100, 70] true rfl).1,
   (C7_commit_keeps_request_entry
      (run initState [Op.submitEncryptedOrderBook 500 300 50 20 7 1000,
        Op.requestAssessmentDecryption 7 1 5])
      (run initState [Op.submitEncryptedOrderBook 500 300 50 20 7 1000,
        Op.requestAssessmentDecryption 7 1 5,
        Op.decryptAssessment 5 [2, 100, 70] true])
      5 [2, 100, 70] true rfl).2.2.1⟩

/-- Claim C9 counterexample: two unresolved pending requests for the same
(exchangeId, AssessmentReveal) pair coexist — a second
`requestAssessmentDecryption` while one is outstanding neither fails nor
removes or disables the first: both request ids 5 and 6 map to
exchangeId 1, nothing is revealed, and both callbacks would still be
accepted. -/
theorem C9_counterexample :
    (run initState [Op.submitEncryptedOrderBook 500 300 50 20 7 1000,
        Op.requestAssessmentDecryption 7 1 5,
        Op.requestAssessmentDecryption 7 1 6]).requestToExchangeId 5 = 1 ∧
    (run initState [Op.submitEncryptedOrderBook 500 300 50 20 7 1000,
        Op.requestAssessmentDecryption 7 1 5,
        Op.requestAssessmentDecryption 7 1 6]).requestToExchangeId 6 = 1 ∧
    revealedOf (run initState [Op.submitEncryptedOrderBook 500 300 50 20 7 1000,
        Op.requestAssessmentDecryption 7 1 5,
        Op.requestAssessmentDecryption 7 1 6]) 1 = false ∧
    isOkResult (step (run initState [Op.submitEncryptedOrderBook 500 300 50 20 7 1000,
        Op.requestAssessmentDecryption 7 1 5,
        Op.requestAssessmentDecryption 7 1 6])
      (Op.decryptAssessment 5 [2, 100, 70] true)) = true ∧
    isOkResult (step (run initState [Op.submitEncryptedOrderBook 500 300 50 20 7 1000,
        Op.requestAssessmentDecryption 7 1 5,
        Op.requestAssessmentDecryption 7 1 6])
      (Op.decryptAssessment 6 [2, 100, 70] true)) = true :=
  ⟨rfl, rfl, rfl, rfl, rfl⟩

/-- Claim C9 (amended): multiple unresolved pending requests for the same
(exchangeId, AssessmentReveal) pair can coexist, but at most one of them
ever commits a reveal: once any assessment callback succeeds, every
further assessment callback whose requestId maps to the same exchangeId
fails with `AlreadyRevealed`. -/
theorem C9_at_most_one_commit (s s2 : ContractState) (rid rid2 : Nat)
    (ct ct2 : List Nat) (pv pv2 : Bool)
    (h : step s (Op.decryptAssessment rid ct pv) = .ok s2)
    (hsame : s.requestToExchangeId rid2 = s.requestToExchangeId rid) :
    step s2 (Op.decryptAssessment rid2 ct2 pv2) = .error .alreadyDecrypted := by
  replace h : decryptAssessment s rid ct pv = .ok s2 := h
  obtain ⟨h0, hrev, hpv, l, c, i, hdec, hs2⟩ := decryptAssessment_ok_inv h
  subst hs2
  show decryptAssessment _ rid2 ct2 pv2 = .error .alreadyDecrypted
  unfold decryptAssessment
  simp [hsame, h0, revealedOf]

/-- Witness for the amended C9: after request 5 commits, the still-live
request 6 for the same exchangeId is rejected. -/
theorem C9_at_most_one_commit_witness :
    step (run initState [Op.submitEncryptedOrderBook 500 300 50 20 7 1000,
        Op.requestAssessmentDecryption 7 1 5,
        Op.requestAssessmentDecryption 7 1 6,
        Op.decryptAssessment 5 [2, 100, 70] true])
      (Op.decryptAssessment 6 [2, 100, 70] true) = .error .alreadyDecrypted :=
  C9_at_most_one_commit
    (run initState [Op.submitEncryptedOrderBook 500 300 50 20 7 1000,
        Op.requestAssessmentDecryption 7 1 5,
        Op.requestAssessmentDecryption 7 1 6])
    (run initState [Op.submitEncryptedOrderBook 500 300 50 20 7 1000,
        Op.requestAssessmentDecryption 7 1 5,
        Op.requestAssessmentDecryption 7 1 6,
        Op.decryptAssessment 5 [2, 100, 70] true])
    5 6 [2, 100, 70] [2, 100, 70] true true rfl rfl

end HFTRisk
